import Mathlib

/-!
Shallow embedding of `SparkFunLSM9DS1.c` (an LSM9DS1 IMU driver ported to
Tiva/CC3200 devices) together with theorems about its calibration engine,
raw-sample readers, configuration setters and bring-up sequence.

Machine integers are modelled as `ℤ`/`ℕ` with explicit reductions where the
C code stores into a narrower type; `float` quantities (resolutions, the
physical biases) are modelled as exact rationals `ℚ`; the bus transport is
modelled by passing the bytes it returns (and, where a function writes to
the device, by returning the list of performed register writes).
-/

/- ### Machine-integer helpers -/

/-- Reduction of an integer into the value range of a signed 16-bit
`int16_t`, modelling the (two's-complement wrap-around) conversion a C
store into an `int16_t` performs. -/
def wrap16 (z : ℤ) : ℤ := (z + 32768) % 65536 - 32768

/-- The 16-bit two's-complement bit pattern of an integer, as a natural
number below 65536.  Used where the C code extracts bytes from a promoted
`int16_t` (`offset & 0xFF00`, `offset & 0x00FF`). -/
def bits16 (z : ℤ) : ℕ := (z % 65536).toNat

/-- The value range of `int16_t`. -/
def inInt16 (z : ℤ) : Prop := -32768 ≤ z ∧ z ≤ 32767

instance (z : ℤ) : Decidable (inInt16 z) :=
  inferInstanceAs (Decidable (-32768 ≤ z ∧ z ≤ 32767))

/-- Truncation of a rational toward zero, the rounding a C cast from a
floating-point value to an integer type performs. -/
def ratTrunc (q : ℚ) : ℤ := Int.tdiv q.num q.den

/-- Little-endian reassembly of a signed 16-bit sample from two transport
bytes, as in `*ax = (temp[1] << 8) | temp[0]` where `temp` is a `uint8_t`
buffer and the result is stored into an `int16_t`. -/
def assemble16 (lo hi : ℕ) : ℤ := wrap16 ((((hi % 256) <<< 8) ||| (lo % 256) : ℕ) : ℤ)

/- ### Data model: samples and settings (`IMUSettings`) -/

/-- A triple of per-axis signed 16-bit readings (x, y, z). -/
structure Triple where
  x : ℤ
  y : ℤ
  z : ℤ
deriving DecidableEq

/-- Array-style per-axis access, `0 = X_AXIS`, `1 = Y_AXIS`, `2 = Z_AXIS`. -/
def Triple.get (t : Triple) : Fin 3 → ℤ
  | 0 => t.x
  | 1 => t.y
  | 2 => t.z

/-- All three axes are within the `int16_t` range (true of every triple the
raw-sample readers produce). -/
def Triple.InRange (t : Triple) : Prop := inInt16 t.x ∧ inInt16 t.y ∧ inInt16 t.z

instance (t : Triple) : Decidable t.InRange :=
  inferInstanceAs (Decidable (_ ∧ _ ∧ _))

/-- A triple of physical-unit (`float`, modelled as `ℚ`) values. -/
structure QTriple where
  x : ℚ
  y : ℚ
  z : ℚ
deriving DecidableEq

/-- Per-axis access for physical-unit triples. -/
def QTriple.get (t : QTriple) : Fin 3 → ℚ
  | 0 => t.x
  | 1 => t.y
  | 2 => t.z

/-- Gyroscope block of `IMUSettings` (the fields the embedded functions
read). -/
structure GyroSettings where
  enabled : Bool
  enableX : Bool
  enableY : Bool
  enableZ : Bool
  scale : ℕ
  sampleRate : ℕ
  bandwidth : ℕ
  lowPowerEnable : Bool
  HPFEnable : Bool
  HPFCutoff : ℕ
  flipX : Bool
  flipY : Bool
  flipZ : Bool
  orientation : ℕ
  latchInterrupt : Bool
deriving DecidableEq

/-- Accelerometer block of `IMUSettings`.  `bandwidth` is a signed small
integer (`-1` means "determined by sample rate"). -/
structure AccelSettings where
  enabled : Bool
  enableX : Bool
  enableY : Bool
  enableZ : Bool
  scale : ℕ
  sampleRate : ℕ
  bandwidth : ℤ
  highResEnable : Bool
  highResBandwidth : ℕ
deriving DecidableEq

/-- Magnetometer block of `IMUSettings`. -/
structure MagSettings where
  enabled : Bool
  scale : ℕ
  sampleRate : ℕ
  tempCompensationEnable : Bool
  XYPerformance : ℕ
  ZPerformance : ℕ
  lowPowerEnable : Bool
  operatingMode : ℕ
deriving DecidableEq

/-- The driver's settings record (the blocks the embedded functions use). -/
structure IMUSettings where
  gyro : GyroSettings
  accel : AccelSettings
  mag : MagSettings
deriving DecidableEq

/-- Shallow embedding of the settings defaults established by
`LSM9DS1_init` (SparkFunLSM9DS1.c:111-201). -/
def LSM9DS1_init : IMUSettings :=
  { gyro := { enabled := true, enableX := true, enableY := true, enableZ := true
              scale := 245, sampleRate := 6, bandwidth := 0
              lowPowerEnable := false, HPFEnable := false, HPFCutoff := 0
              flipX := false, flipY := false, flipZ := false
              orientation := 0, latchInterrupt := true }
    accel := { enabled := true, enableX := true, enableY := true, enableZ := true
               scale := 2, sampleRate := 6, bandwidth := -1
               highResEnable := false, highResBandwidth := 0 }
    mag := { enabled := true, scale := 4, sampleRate := 7
             tempCompensationEnable := false, XYPerformance := 3, ZPerformance := 3
             lowPowerEnable := false, operatingMode := 0 } }

/- ### Unit converter: sensitivity constants and resolutions -/

def SENSITIVITY_ACCELEROMETER_2 : ℚ := 0.000061
def SENSITIVITY_ACCELEROMETER_4 : ℚ := 0.000122
def SENSITIVITY_ACCELEROMETER_8 : ℚ := 0.000244
def SENSITIVITY_ACCELEROMETER_16 : ℚ := 0.000732
def SENSITIVITY_GYROSCOPE_245 : ℚ := 0.00875
def SENSITIVITY_GYROSCOPE_500 : ℚ := 0.0175
def SENSITIVITY_GYROSCOPE_2000 : ℚ := 0.07
def SENSITIVITY_MAGNETOMETER_4 : ℚ := 0.00014
def SENSITIVITY_MAGNETOMETER_8 : ℚ := 0.00029
def SENSITIVITY_MAGNETOMETER_12 : ℚ := 0.00043
def SENSITIVITY_MAGNETOMETER_16 : ℚ := 0.00058

/-- Shallow embedding of `LSM9DS1_constrainScales`
(SparkFunLSM9DS1.c:1069-1088): any scale outside the supported set is
replaced by the default. -/
def LSM9DS1_constrainScales (s : IMUSettings) : IMUSettings :=
  let gScl := if s.gyro.scale ≠ 245 ∧ s.gyro.scale ≠ 500 ∧ s.gyro.scale ≠ 2000 then 245
    else s.gyro.scale
  let aScl := if s.accel.scale ≠ 2 ∧ s.accel.scale ≠ 4 ∧ s.accel.scale ≠ 8 ∧ s.accel.scale ≠ 16
    then 2 else s.accel.scale
  let mScl := if s.mag.scale ≠ 4 ∧ s.mag.scale ≠ 8 ∧ s.mag.scale ≠ 12 ∧ s.mag.scale ≠ 16
    then 4 else s.mag.scale
  { s with gyro := { s.gyro with scale := gScl }
           accel := { s.accel with scale := aScl }
           mag := { s.mag with scale := mScl } }

/-- Shallow embedding of `LSM9DS1_calcgRes` (SparkFunLSM9DS1.c:828-846).
`gRes0` is the prior value of the global `gRes`, kept when the switch hits
its (empty) default case. -/
def LSM9DS1_calcgRes (scale : ℕ) (gRes0 : ℚ) : ℚ :=
  if scale = 245 then SENSITIVITY_GYROSCOPE_245
  else if scale = 500 then SENSITIVITY_GYROSCOPE_500
  else if scale = 2000 then SENSITIVITY_GYROSCOPE_2000
  else gRes0

/-- Shallow embedding of `LSM9DS1_calcaRes` (SparkFunLSM9DS1.c:848-869). -/
def LSM9DS1_calcaRes (scale : ℕ) (aRes0 : ℚ) : ℚ :=
  if scale = 2 then SENSITIVITY_ACCELEROMETER_2
  else if scale = 4 then SENSITIVITY_ACCELEROMETER_4
  else if scale = 8 then SENSITIVITY_ACCELEROMETER_8
  else if scale = 16 then SENSITIVITY_ACCELEROMETER_16
  else aRes0

/-- Shallow embedding of `LSM9DS1_calcmRes` (SparkFunLSM9DS1.c:871-890). -/
def LSM9DS1_calcmRes (scale : ℕ) (mRes0 : ℚ) : ℚ :=
  if scale = 4 then SENSITIVITY_MAGNETOMETER_4
  else if scale = 8 then SENSITIVITY_MAGNETOMETER_8
  else if scale = 12 then SENSITIVITY_MAGNETOMETER_12
  else if scale = 16 then SENSITIVITY_MAGNETOMETER_16
  else mRes0

/-- Shallow embedding of `LSM9DS1_calcGyro` (SparkFunLSM9DS1.c:671-675). -/
def LSM9DS1_calcGyro (gRes : ℚ) (gyro : ℤ) : ℚ := gRes * gyro

/-- Shallow embedding of `LSM9DS1_calcAccel` (SparkFunLSM9DS1.c:677-681). -/
def LSM9DS1_calcAccel (aRes : ℚ) (accel : ℤ) : ℚ := aRes * accel

/-- Shallow embedding of `LSM9DS1_calcMag` (SparkFunLSM9DS1.c:683-687). -/
def LSM9DS1_calcMag (mRes : ℚ) (mag : ℤ) : ℚ := mRes * mag

/- ### Raw sample readers -/

/-- The result of a burst read over the transport: the byte count the
transport reports, and the bytes it deposited into the destination
buffer. -/
structure BurstResp where
  n : ℕ
  data : List ℕ
deriving DecidableEq

/-- The raw triple a 6-byte burst response assembles to (x from bytes 0-1,
y from 2-3, z from 4-5, each little-endian signed 16-bit). -/
def rawOfResp (resp : BurstResp) : Triple :=
  ⟨assemble16 (resp.data.getD 0 0) (resp.data.getD 1 0),
   assemble16 (resp.data.getD 2 0) (resp.data.getD 3 0),
   assemble16 (resp.data.getD 4 0) (resp.data.getD 5 0)⟩

/-- Shallow embedding of `LSM9DS1_readGyro` (SparkFunLSM9DS1.c:636-652).
`prev` holds the values of the caller's output variables before the call;
they are reassigned only when the transport reports exactly 6 bytes.
`autoCalc`/`gBiasRaw` are the relevant global state. -/
def LSM9DS1_readGyro (autoCalc : Bool) (gBiasRaw : Triple) (prev : Triple)
    (resp : BurstResp) : Triple :=
  if resp.n = 6 then
    let raw := rawOfResp resp
    if autoCalc then
      ⟨wrap16 (raw.x - gBiasRaw.x), wrap16 (raw.y - gBiasRaw.y), wrap16 (raw.z - gBiasRaw.z)⟩
    else raw
  else prev

/-- Shallow embedding of `LSM9DS1_readAccel` (SparkFunLSM9DS1.c:569-584). -/
def LSM9DS1_readAccel (autoCalc : Bool) (aBiasRaw : Triple) (prev : Triple)
    (resp : BurstResp) : Triple :=
  if resp.n = 6 then
    let raw := rawOfResp resp
    if autoCalc then
      ⟨wrap16 (raw.x - aBiasRaw.x), wrap16 (raw.y - aBiasRaw.y), wrap16 (raw.z - aBiasRaw.z)⟩
    else raw
  else prev

/-- Shallow embedding of `LSM9DS1_readMag` (SparkFunLSM9DS1.c:602-611): no
bias is ever subtracted on the magnetometer read path. -/
def LSM9DS1_readMag (prev : Triple) (resp : BurstResp) : Triple :=
  if resp.n = 6 then rawOfResp resp else prev

/-- Shallow embedding of `LSM9DS1_readGyroAxis` (SparkFunLSM9DS1.c:654-669).
Returns the assembled (bias-corrected when `autoCalc`) value on a full
2-byte response and the literal `0` otherwise. -/
def LSM9DS1_readGyroAxis (autoCalc : Bool) (gBiasRaw : Triple) (axis : Fin 3)
    (resp : BurstResp) : ℤ :=
  if resp.n = 2 then
    let value := assemble16 (resp.data.getD 0 0) (resp.data.getD 1 0)
    if autoCalc then wrap16 (value - gBiasRaw.get axis) else value
  else 0

/-- Shallow embedding of `LSM9DS1_readAccelAxis` (SparkFunLSM9DS1.c:586-600). -/
def LSM9DS1_readAccelAxis (autoCalc : Bool) (aBiasRaw : Triple) (axis : Fin 3)
    (resp : BurstResp) : ℤ :=
  if resp.n = 2 then
    let value := assemble16 (resp.data.getD 0 0) (resp.data.getD 1 0)
    if autoCalc then wrap16 (value - aBiasRaw.get axis) else value
  else 0

/-- Shallow embedding of `LSM9DS1_readMagAxis` (SparkFunLSM9DS1.c:613-621). -/
def LSM9DS1_readMagAxis (axis : Fin 3) (resp : BurstResp) : ℤ :=
  if resp.n = 2 then assemble16 (resp.data.getD 0 0) (resp.data.getD 1 0)
  else 0

/- ### Calibration engine -/

/-- One g worth of raw accelerometer ticks, `(int16_t)(1. / aRes)` as in
SparkFunLSM9DS1.c:415 (for every supported resolution the value is within
the `int16_t` range, so the cast is plain truncation). -/
def gravityTicks (aRes : ℚ) : ℤ := ratTrunc (1 / aRes)

/-- The bias state `LSM9DS1_calibrate` publishes, plus the resulting
auto-calibration flag. -/
structure CalibOut where
  gBiasRaw : Triple
  aBiasRaw : Triple
  gBias : QTriple
  aBias : QTriple
  autoCalc : Bool
deriving DecidableEq

/-- Shallow embedding of `LSM9DS1_calibrate` (SparkFunLSM9DS1.c:390-429).
`samples` is the final masked FIFO_SRC fill level (the poll loop exits once
it is at least 0x1F, and the 6-bit mask keeps it at most 63); `gRead k` /
`aRead k` are the triples the `LSM9DS1_readGyro` / `LSM9DS1_readAccel`
calls of iteration `k` of the drain loop leave in their output variables.
Per-axis sums are accumulated in `int32_t`, which cannot overflow for at
most 63 samples, so they are modelled as plain `ℤ`; the quotient is C
`int32_t` division (truncation toward zero) stored into an `int16_t`. -/
def LSM9DS1_calibrate (gRes aRes : ℚ) (autoCalc0 enableAuto : Bool)
    (samples : ℕ) (gRead aRead : ℕ → Triple) : CalibOut :=
  let gSum : Fin 3 → ℤ := fun i => ((List.range samples).map (fun k => (gRead k).get i)).sum
  let aSum : Fin 3 → ℤ := fun i =>
    if i = 2 then ((List.range samples).map (fun k => (aRead k).z - gravityTicks aRes)).sum
    else ((List.range samples).map (fun k => (aRead k).get i)).sum
  let gRaw : Fin 3 → ℤ := fun i => wrap16 (Int.tdiv (gSum i) samples)
  let aRaw : Fin 3 → ℤ := fun i => wrap16 (Int.tdiv (aSum i) samples)
  { gBiasRaw := ⟨gRaw 0, gRaw 1, gRaw 2⟩
    aBiasRaw := ⟨aRaw 0, aRaw 1, aRaw 2⟩
    gBias := ⟨LSM9DS1_calcGyro gRes (gRaw 0), LSM9DS1_calcGyro gRes (gRaw 1),
              LSM9DS1_calcGyro gRes (gRaw 2)⟩
    aBias := ⟨LSM9DS1_calcAccel aRes (aRaw 0), LSM9DS1_calcAccel aRes (aRaw 1),
              LSM9DS1_calcAccel aRes (aRaw 2)⟩
    autoCalc := if enableAuto then true else autoCalc0 }

/-- Modelled from the spec: the `lsm9ds1_axis` enumerator `ALL_AXIS` from
the missing header `LSM9DS1_Types.h`; the "any-axis data ready" bit of the
magnetometer status register is bit 3 (after X, Y, Z at bits 0-2). -/
def ALL_AXIS : ℕ := 3

/-- Shallow embedding of `LSM9DS1_magAvailable` (SparkFunLSM9DS1.c:561-567)
given the status byte the transport returned: `(status & (1<<axis)) >> axis`. -/
def LSM9DS1_magAvailable (status : ℕ) (axis : ℕ) : ℕ :=
  (status &&& (1 <<< axis)) >>> axis

/-- The busy-wait `while (!LSM9DS1_magAvailable(ALL_AXIS));` of
`LSM9DS1_calibrateMag`, as a fuelled loop over the stream of status bytes
successive polls read: the result is the index of the poll that succeeded,
or `none` if the data-ready bit never rose within `fuel` polls. -/
def pollMagReady (status : ℕ → ℕ) : ℕ → Option ℕ
  | 0 => none
  | fuel + 1 =>
    if LSM9DS1_magAvailable (status 0) ALL_AXIS ≠ 0 then some 0
    else (pollMagReady (fun t => status (t + 1)) fuel).map (· + 1)

/-- One iteration of the min/max update of `LSM9DS1_calibrateMag`
(SparkFunLSM9DS1.c:445-449) over the accumulator `(magMin, magMax)`. -/
def magMinMaxStep (acc : Triple × Triple) (sample : Triple) : Triple × Triple :=
  (⟨if sample.x < acc.1.x then sample.x else acc.1.x,
    if sample.y < acc.1.y then sample.y else acc.1.y,
    if sample.z < acc.1.z then sample.z else acc.1.z⟩,
   ⟨if sample.x > acc.2.x then sample.x else acc.2.x,
    if sample.y > acc.2.y then sample.y else acc.2.y,
    if sample.z > acc.2.z then sample.z else acc.2.z⟩)

/-- Shallow embedding of `LSM9DS1_magOffset` (SparkFunLSM9DS1.c:460-469) as
the list of `(register address, byte)` writes it performs, given the base
addresses of the low/high offset-trim registers (their numeric values live
in the missing header `LSM9DS1_Registers.h`, so they are parameters). -/
def LSM9DS1_magOffset (OFFSET_X_REG_L_M OFFSET_X_REG_H_M : ℕ) (axis : ℕ)
    (offset : ℤ) : List (ℕ × ℕ) :=
  if axis > 2 then []
  else
    let msb := (bits16 offset &&& 0xFF00) >>> 8
    let lsb := bits16 offset &&& 0x00FF
    [(OFFSET_X_REG_L_M + 2 * axis, lsb), (OFFSET_X_REG_H_M + 2 * axis, msb)]

/-- The magnetometer bias state `LSM9DS1_calibrateMag` publishes, plus the
offset-trim register writes it performs. -/
structure MagCalibOut where
  mBiasRaw : Triple
  mBias : QTriple
  writes : List (ℕ × ℕ)
deriving DecidableEq

/-- Shallow embedding of `LSM9DS1_calibrateMag` (SparkFunLSM9DS1.c:431-459).
`mags k` is the triple the `LSM9DS1_readMag` call of iteration `k` returns
(each such call happens only after the `while (!LSM9DS1_magAvailable(ALL_AXIS));`
poll of that iteration succeeded, see `pollMagReady`); the loop runs for
exactly 128 iterations with `magMin`/`magMax` initialized to zero. -/
def LSM9DS1_calibrateMag (OFFSET_X_REG_L_M OFFSET_X_REG_H_M : ℕ) (mRes : ℚ)
    (mags : ℕ → Triple) (loadIn : Bool) : MagCalibOut :=
  let mm := ((List.range 128).map mags).foldl magMinMaxStep (⟨0, 0, 0⟩, ⟨0, 0, 0⟩)
  let raw : Fin 3 → ℤ := fun j => wrap16 (Int.tdiv (mm.2.get j + mm.1.get j) 2)
  { mBiasRaw := ⟨raw 0, raw 1, raw 2⟩
    mBias := ⟨LSM9DS1_calcMag mRes (raw 0), LSM9DS1_calcMag mRes (raw 1),
              LSM9DS1_calcMag mRes (raw 2)⟩
    writes := if loadIn then
        LSM9DS1_magOffset OFFSET_X_REG_L_M OFFSET_X_REG_H_M 0 (raw 0)
          ++ LSM9DS1_magOffset OFFSET_X_REG_L_M OFFSET_X_REG_H_M 1 (raw 1)
          ++ LSM9DS1_magOffset OFFSET_X_REG_L_M OFFSET_X_REG_H_M 2 (raw 2)
      else [] }

/- ### Configuration setters -/

/-- Shallow embedding of `LSM9DS1_setGyroScale` (SparkFunLSM9DS1.c:689-712):
given the requested scale, the CTRL_REG1_G byte read back and the prior
`gRes`, returns the byte written back, the resulting `settings.gyro.scale`
and the recomputed `gRes`. -/
def LSM9DS1_setGyroScale (gScl : ℕ) (ctrl1Old : ℕ) (gRes0 : ℚ) : ℕ × ℕ × ℚ :=
  let c := ctrl1Old &&& 0xE7
  let cs := if gScl = 500 then (c ||| (0x1 <<< 3), 500)
    else if gScl = 2000 then (c ||| (0x3 <<< 3), 2000)
    else (c, 245)
  (cs.1, cs.2, LSM9DS1_calcgRes cs.2 gRes0)

/-- Shallow embedding of `LSM9DS1_setAccelScale` (SparkFunLSM9DS1.c:714-743). -/
def LSM9DS1_setAccelScale (aScl : ℕ) (ctrl6Old : ℕ) (aRes0 : ℚ) : ℕ × ℕ × ℚ :=
  let c := ctrl6Old &&& 0xE7
  let cs := if aScl = 4 then (c ||| (0x2 <<< 3), 4)
    else if aScl = 8 then (c ||| (0x3 <<< 3), 8)
    else if aScl = 16 then (c ||| (0x1 <<< 3), 16)
    else (c, 2)
  (cs.1, cs.2, LSM9DS1_calcaRes cs.2 aRes0)

/-- Shallow embedding of `LSM9DS1_setMagScale` (SparkFunLSM9DS1.c:745-779). -/
def LSM9DS1_setMagScale (mScl : ℕ) (ctrl2Old : ℕ) (mRes0 : ℚ) : ℕ × ℕ × ℚ :=
  let c := ctrl2Old &&& (0xFF ^^^ (0x3 <<< 5))
  let cs := if mScl = 8 then (c ||| (0x1 <<< 5), 8)
    else if mScl = 12 then (c ||| (0x2 <<< 5), 12)
    else if mScl = 16 then (c ||| (0x3 <<< 5), 16)
    else (c, 4)
  (cs.1, cs.2, LSM9DS1_calcmRes cs.2 mRes0)

/-- Shallow embedding of `LSM9DS1_setGyroODR` (SparkFunLSM9DS1.c:781-796):
returns the byte written to CTRL_REG1_G and the new
`settings.gyro.sampleRate`, or `none` for both when `gRate & 0x07 == 0`
(in that case the function performs no read and no write at all). -/
def LSM9DS1_setGyroODR (gRate : ℕ) (ctrl1Old : ℕ) : Option ℕ × Option ℕ :=
  if gRate &&& 0x07 ≠ 0 then
    (some ((ctrl1Old &&& (0xFF ^^^ (0x7 <<< 5))) ||| ((gRate &&& 0x07) <<< 5)),
     some (gRate &&& 0x07))
  else (none, none)

/-- Shallow embedding of `LSM9DS1_setAccelODR` (SparkFunLSM9DS1.c:798-813). -/
def LSM9DS1_setAccelODR (aRate : ℕ) (ctrl6Old : ℕ) : Option ℕ × Option ℕ :=
  if aRate &&& 0x07 ≠ 0 then
    (some ((ctrl6Old &&& 0x1F) ||| ((aRate &&& 0x07) <<< 5)), some (aRate &&& 0x07))
  else (none, none)

/-- Shallow embedding of `LSM9DS1_setMagODR` (SparkFunLSM9DS1.c:815-826):
always rewrites CTRL_REG1_M. -/
def LSM9DS1_setMagODR (mRate : ℕ) (ctrl1MOld : ℕ) : ℕ × ℕ :=
  ((ctrl1MOld &&& (0xFF ^^^ (0x7 <<< 2))) ||| ((mRate &&& 0x07) <<< 2), mRate &&& 0x07)

/-- Shallow embedding of `LSM9DS1_setFIFO` (SparkFunLSM9DS1.c:1056-1062):
the byte written to FIFO_CTRL. -/
def LSM9DS1_setFIFO (fifoMode : ℕ) (fifoThs : ℕ) : ℕ :=
  let threshold := if fifoThs ≤ 0x1F then fifoThs else 0x1F
  ((fifoMode &&& 0x7) <<< 5) ||| (threshold &&& 0x1F)

/- ### Bring-up: `begin` and the connectivity check -/

/-- Modelled from the spec: the expected accel/gyro identity byte
`WHO_AM_I_AG_RSP` from the missing header `LSM9DS1_Registers.h` (the
device's documented identity byte). -/
def WHO_AM_I_AG_RSP : ℕ := 0x68

/-- Modelled from the spec: the expected magnetometer identity byte
`WHO_AM_I_M_RSP` from the missing header `LSM9DS1_Registers.h`. -/
def WHO_AM_I_M_RSP : ℕ := 0x3D

/-- Shallow embedding of `LSM9DS1_isConnected` (SparkFunLSM9DS1.c:99-109),
given the two identity bytes read from the devices. -/
def LSM9DS1_isConnected (mTest xgTest : ℕ) : Bool :=
  ((xgTest <<< 8) ||| mTest) == ((WHO_AM_I_AG_RSP <<< 8) ||| WHO_AM_I_M_RSP)

/-- The accel/gyro sub-device registers `LSM9DS1_begin` touches. -/
inductive XgReg
  | WHO_AM_I_XG
  | CTRL_REG1_G
  | CTRL_REG2_G
  | CTRL_REG3_G
  | CTRL_REG4
  | ORIENT_CFG_G
  | CTRL_REG5_XL
  | CTRL_REG6_XL
  | CTRL_REG7_XL
deriving DecidableEq

/-- The magnetometer sub-device registers `LSM9DS1_begin` touches. -/
inductive MReg
  | WHO_AM_I_M
deriving DecidableEq

/-- A bus transaction performed during bring-up. -/
inductive BusEv
  | readM (r : MReg)
  | readXG (r : XgReg)
  | writeXG (r : XgReg) (data : ℕ)
deriving DecidableEq

/-- Shallow embedding of `LSM9DS1_initGyro` (SparkFunLSM9DS1.c:247-317) as
its register-write trace. -/
def LSM9DS1_initGyro (s : IMUSettings) : List BusEv :=
  let ctrl1a := if s.gyro.enabled then (s.gyro.sampleRate &&& 0x07) <<< 5 else 0
  let ctrl1b := if s.gyro.scale = 500 then ctrl1a ||| (0x1 <<< 3)
    else if s.gyro.scale = 2000 then ctrl1a ||| (0x3 <<< 3)
    else ctrl1a
  let ctrl1 := ctrl1b ||| (s.gyro.bandwidth &&& 0x3)
  let ctrl3a := if s.gyro.lowPowerEnable then 1 <<< 7 else 0
  let ctrl3 := if s.gyro.HPFEnable then ctrl3a ||| ((1 <<< 6) ||| (s.gyro.HPFCutoff &&& 0x0F))
    else ctrl3a
  let ctrl4 := (if s.gyro.enableZ then 1 <<< 5 else 0)
    ||| (if s.gyro.enableY then 1 <<< 4 else 0)
    ||| (if s.gyro.enableX then 1 <<< 3 else 0)
    ||| (if s.gyro.latchInterrupt then 1 <<< 1 else 0)
  let orient := (if s.gyro.flipX then 1 <<< 5 else 0)
    ||| (if s.gyro.flipY then 1 <<< 4 else 0)
    ||| (if s.gyro.flipZ then 1 <<< 3 else 0)
  [.writeXG .CTRL_REG1_G ctrl1, .writeXG .CTRL_REG2_G 0x00, .writeXG .CTRL_REG3_G ctrl3,
   .writeXG .CTRL_REG4 ctrl4, .writeXG .ORIENT_CFG_G orient]

/-- Shallow embedding of `LSM9DS1_initAccel` (SparkFunLSM9DS1.c:319-381) as
its register-write trace (`settings.accel.bandwidth & 0x03` is only reached
under the `bandwidth >= 0` guard, where `toNat` is exact). -/
def LSM9DS1_initAccel (s : IMUSettings) : List BusEv :=
  let ctrl5 := (if s.accel.enableZ then 1 <<< 5 else 0)
    ||| (if s.accel.enableY then 1 <<< 4 else 0)
    ||| (if s.accel.enableX then 1 <<< 3 else 0)
  let ctrl6a := if s.accel.enabled then (s.accel.sampleRate &&& 0x07) <<< 5 else 0
  let ctrl6b := if s.accel.scale = 4 then ctrl6a ||| (0x2 <<< 3)
    else if s.accel.scale = 8 then ctrl6a ||| (0x3 <<< 3)
    else if s.accel.scale = 16 then ctrl6a ||| (0x1 <<< 3)
    else ctrl6a
  let ctrl6 := if 0 ≤ s.accel.bandwidth then
      (ctrl6b ||| (1 <<< 2)) ||| (s.accel.bandwidth.toNat &&& 0x03)
    else ctrl6b
  let ctrl7 := if s.accel.highResEnable then
      (1 <<< 7) ||| ((s.accel.highResBandwidth &&& 0x3) <<< 5)
    else 0
  [.writeXG .CTRL_REG5_XL ctrl5, .writeXG .CTRL_REG6_XL ctrl6, .writeXG .CTRL_REG7_XL ctrl7]

/-- Result of `LSM9DS1_begin`: the constrained settings, the recomputed
resolutions, the returned 16-bit combined identity, and the bus trace. -/
structure BeginOut where
  settings : IMUSettings
  gRes : ℚ
  aRes : ℚ
  mRes : ℚ
  ret : ℕ
  trace : List BusEv
deriving DecidableEq

/-- Shallow embedding of `LSM9DS1_begin` (SparkFunLSM9DS1.c:204-245).
`mTest`/`xgTest` are the identity bytes the two WHO_AM_I reads return; the
identity comparison in the source is commented out, so the gyro and accel
initialization writes follow unconditionally and the combined identity
word itself is returned. -/
def LSM9DS1_begin (s0 : IMUSettings) (gRes0 aRes0 mRes0 : ℚ)
    (mTest xgTest : ℕ) : BeginOut :=
  let s := LSM9DS1_constrainScales s0
  let gRes := LSM9DS1_calcgRes s.gyro.scale gRes0
  let mRes := LSM9DS1_calcmRes s.mag.scale mRes0
  let aRes := LSM9DS1_calcaRes s.accel.scale aRes0
  let whoAmICombined := (xgTest <<< 8) ||| mTest
  { settings := s, gRes := gRes, aRes := aRes, mRes := mRes
    ret := whoAmICombined
    trace := [.readM .WHO_AM_I_M, .readXG .WHO_AM_I_XG]
      ++ LSM9DS1_initGyro s ++ LSM9DS1_initAccel s }

/- ### Arithmetic helper lemmas -/

theorem wrap16_eq_of_inInt16 {z : ℤ} (h : inInt16 z) : wrap16 z = z := by
  obtain ⟨h1, h2⟩ := h
  unfold wrap16
  rw [Int.emod_eq_of_lt (by omega) (by omega)]
  omega

theorem wrap16_zero : wrap16 0 = 0 :=
  wrap16_eq_of_inInt16 (by constructor <;> norm_num)

theorem tdiv_le_of_le_mul {s N B : ℤ} (hN : 0 < N) (hB : 0 ≤ B) (h : s ≤ N * B) :
    Int.tdiv s N ≤ B := by
  rcases le_or_lt 0 s with hs | hs
  · rw [Int.tdiv_eq_ediv hs hN.le]
    have hlt : s / N < B + 1 := by
      rw [Int.ediv_lt_iff_lt_mul hN]
      nlinarith
    omega
  · have h1 : Int.tdiv s N = -Int.tdiv (-s) N := by
      rw [← Int.neg_tdiv, neg_neg]
    have h2 : 0 ≤ Int.tdiv (-s) N := Int.tdiv_nonneg (by omega) hN.le
    omega

theorem neg_le_tdiv_of_le {s N B : ℤ} (hN : 0 < N) (hB : 0 ≤ B) (h : -(N * B) ≤ s) :
    -B ≤ Int.tdiv s N := by
  rcases le_or_lt 0 s with hs | hs
  · have := Int.tdiv_nonneg hs hN.le
    omega
  · have h1 : Int.tdiv s N = -Int.tdiv (-s) N := by
      rw [← Int.neg_tdiv, neg_neg]
    have h2 : Int.tdiv (-s) N ≤ B := tdiv_le_of_le_mul hN hB (by omega)
    omega

theorem list_sum_le {l : List ℤ} {B : ℤ} (h : ∀ v ∈ l, v ≤ B) :
    l.sum ≤ (l.length : ℤ) * B := by
  have := List.sum_le_card_nsmul l B h
  simpa [nsmul_eq_mul] using this

theorem le_list_sum {l : List ℤ} {B : ℤ} (h : ∀ v ∈ l, B ≤ v) :
    (l.length : ℤ) * B ≤ l.sum := by
  have := List.card_nsmul_le_sum l B h
  simpa [nsmul_eq_mul] using this

/-- A truncated quotient of a sum of `int16_t` values by their (positive)
count is again within the `int16_t` range, so the `int16_t` store of the
bias quotient is exact. -/
theorem tdiv_sum_inInt16 {l : List ℤ} (hne : 0 < l.length) (h : ∀ v ∈ l, inInt16 v) :
    inInt16 (Int.tdiv l.sum (l.length : ℤ)) := by
  have hN : (0 : ℤ) < (l.length : ℤ) := by exact_mod_cast hne
  constructor
  · have hlb : -((l.length : ℤ) * 32768) ≤ l.sum := by
      have := le_list_sum (l := l) (B := -32768) (fun v hv => (h v hv).1)
      omega
    have := neg_le_tdiv_of_le (B := 32768) hN (by norm_num) hlb
    omega
  · exact tdiv_le_of_le_mul hN (by norm_num) (list_sum_le fun v hv => (h v hv).2)

/- ### Fold helper lemmas (running min/max of `calibrateMag`) -/

theorem foldl_minmax_fst (l : List Triple) (mn mx : Triple) (j : Fin 3) :
    ((l.foldl magMinMaxStep (mn, mx)).1.get j) =
      l.foldl (fun a t => if t.get j < a then t.get j else a) (mn.get j) := by
  induction l generalizing mn mx with
  | nil => rfl
  | cons hd tl ih =>
    simp only [List.foldl_cons]
    rw [ih]
    congr 1
    fin_cases j <;> rfl

theorem foldl_minmax_snd (l : List Triple) (mn mx : Triple) (j : Fin 3) :
    ((l.foldl magMinMaxStep (mn, mx)).2.get j) =
      l.foldl (fun a t => if t.get j > a then t.get j else a) (mx.get j) := by
  induction l generalizing mn mx with
  | nil => rfl
  | cons hd tl ih =>
    simp only [List.foldl_cons]
    rw [ih]
    congr 1
    fin_cases j <;> rfl

theorem foldl_if_gt_eq_max {α : Type} (f : α → ℤ) (l : List α) (a : ℤ) :
    l.foldl (fun acc t => if f t > acc then f t else acc) a = (l.map f).foldl max a := by
  induction l generalizing a with
  | nil => rfl
  | cons hd tl ih =>
    simp only [List.foldl_cons, List.map_cons]
    rw [ih]
    congr 1
    rcases lt_trichotomy a (f hd) with h | h | h <;> simp [max_def, h.le, h]

theorem foldl_if_lt_eq_min {α : Type} (f : α → ℤ) (l : List α) (a : ℤ) :
    l.foldl (fun acc t => if f t < acc then f t else acc) a = (l.map f).foldl min a := by
  induction l generalizing a with
  | nil => rfl
  | cons hd tl ih =>
    simp only [List.foldl_cons, List.map_cons]
    rw [ih]
    congr 1
    rcases lt_trichotomy a (f hd) with h | h | h <;> simp [min_def, h.le, h]

theorem le_foldl_max (l : List ℤ) (a : ℤ) : a ≤ l.foldl max a := by
  induction l generalizing a with
  | nil => simp
  | cons hd tl ih => exact le_trans (le_max_left a hd) (ih (max a hd))

theorem foldl_max_le {l : List ℤ} {a B : ℤ} (ha : a ≤ B) (h : ∀ v ∈ l, v ≤ B) :
    l.foldl max a ≤ B := by
  induction l generalizing a with
  | nil => simpa
  | cons hd tl ih =>
    simp only [List.foldl_cons]
    exact ih (max_le ha (h hd (by simp))) (fun v hv => h v (by simp [hv]))

theorem foldl_min_le (l : List ℤ) (a : ℤ) : l.foldl min a ≤ a := by
  induction l generalizing a with
  | nil => simp
  | cons hd tl ih => exact le_trans (ih (min a hd)) (min_le_left a hd)

theorem le_foldl_min {l : List ℤ} {a B : ℤ} (ha : B ≤ a) (h : ∀ v ∈ l, B ≤ v) :
    B ≤ l.foldl min a := by
  induction l generalizing a with
  | nil => simpa
  | cons hd tl ih =>
    simp only [List.foldl_cons]
    exact ih (le_min ha (h hd (by simp))) (fun v hv => h v (by simp [hv]))

/- ### Bit-level helper lemmas (read-modify-write setters) -/

/-- Frame property of a read-modify-write update: or-ing field bits that
are disjoint from the kept mask leaves every masked-in bit unchanged. -/
theorem and_or_frame (old sbits mask : ℕ) (h : sbits &&& mask = 0) :
    ((old &&& mask) ||| sbits) &&& mask = old &&& mask := by
  apply Nat.eq_of_testBit_eq
  intro i
  have h0 := congrArg (fun n => n.testBit i) h
  simp only [Nat.testBit_and, Nat.zero_testBit, Bool.and_eq_false_iff] at h0
  simp only [Nat.testBit_and, Nat.testBit_or]
  cases hm : Nat.testBit mask i
  · simp
  · rcases h0 with h0 | h0
    · simp [h0]
    · rw [hm] at h0
      simp at h0

/-- Bits of a 3-bit field shifted to positions 5-7 are disjoint from the
low 5 bits. -/
theorem shift5_and_0x1F (r : ℕ) : ((r &&& 0x07) <<< 5) &&& 0x1F = 0 := by
  have h8 : r &&& 0x07 < 8 := Nat.and_lt_two_pow r (n := 3) (by norm_num)
  set k := r &&& 0x07 with hk
  interval_cases k <;> decide

/-- Bits of a 3-bit field shifted to positions 2-4 are disjoint from the
mask `0xE3` that keeps bits 0-1 and 5-7. -/
theorem shift2_and_0xE3 (r : ℕ) : ((r &&& 0x07) <<< 2) &&& 0xE3 = 0 := by
  have h8 : r &&& 0x07 < 8 := Nat.and_lt_two_pow r (n := 3) (by norm_num)
  set k := r &&& 0x07 with hk
  interval_cases k <;> decide

/- ### Bridging lemmas -/

theorem Triple.inRange_get {t : Triple} (h : t.InRange) (i : Fin 3) : inInt16 (t.get i) := by
  fin_cases i
  exacts [h.1, h.2.1, h.2.2]

/- ### Claim C9 -/

/-- C9: for every `fifoMode` and requested threshold, `LSM9DS1_setFIFO` writes
`((fifoMode & 0x7) << 5) | min(fifoThs, 31)` to FIFO_CTRL; a threshold above 31
is clamped to 31 instead of wrapping into the mode bits. -/
theorem setFIFO_threshold_clamp (fifoMode fifoThs : ℕ) :
    LSM9DS1_setFIFO fifoMode fifoThs = ((fifoMode &&& 0x7) <<< 5) ||| min fifoThs 31
    ∧ (31 < fifoThs →
        LSM9DS1_setFIFO fifoMode fifoThs = ((fifoMode &&& 0x7) <<< 5) ||| 31) := by
  have hand : ∀ t : ℕ, t &&& 0x1F = t % 32 := by
    intro t
    have h := Nat.and_pow_two_sub_one_eq_mod t 5
    norm_num at h
    exact h
  constructor
  · simp only [LSM9DS1_setFIFO]
    by_cases h : fifoThs ≤ 0x1F
    · rw [if_pos h, hand, Nat.mod_eq_of_lt (by omega)]
      congr 1
      omega
    · rw [if_neg h, hand]
      congr 1
      omega
  · intro h
    simp only [LSM9DS1_setFIFO]
    rw [if_neg (by omega), hand]

/-- Witness for C9 at `fifoMode = 6`, `fifoThs = 40`: the over-large threshold
is clamped to 31. -/
theorem setFIFO_threshold_clamp_witness :
    LSM9DS1_setFIFO 6 40 = ((6 &&& 0x7) <<< 5) ||| 31 :=
  (setFIFO_threshold_clamp 6 40).2 (by norm_num)

/- ### Claim C10 -/

/-- C10: `LSM9DS1_magOffset` with an axis above 2 performs no register write at
all (and touches no other state); with axis 0, 1 or 2 it performs exactly the
two writes (low byte then high byte) whose addresses stay inside the
six-register offset-trim block `[OFFSET_X_REG_L_M, OFFSET_X_REG_H_M + 4]`. -/
theorem magOffset_write_bounds (L H axis : ℕ) (offset : ℤ) :
    (2 < axis → LSM9DS1_magOffset L H axis offset = [])
    ∧ (axis ≤ 2 →
        LSM9DS1_magOffset L H axis offset =
          [(L + 2 * axis, bits16 offset &&& 0x00FF),
           (H + 2 * axis, (bits16 offset &&& 0xFF00) >>> 8)]
        ∧ (H = L + 1 →
            ∀ p ∈ LSM9DS1_magOffset L H axis offset, L ≤ p.1 ∧ p.1 ≤ H + 4)) := by
  constructor
  · intro h
    unfold LSM9DS1_magOffset
    rw [if_pos (by omega)]
  · intro h
    have heq : LSM9DS1_magOffset L H axis offset =
        [(L + 2 * axis, bits16 offset &&& 0x00FF),
         (H + 2 * axis, (bits16 offset &&& 0xFF00) >>> 8)] := by
      unfold LSM9DS1_magOffset
      rw [if_neg (by omega)]
    refine ⟨heq, ?_⟩
    intro hH p hp
    rw [heq] at hp
    simp only [List.mem_cons, List.not_mem_nil, or_false] at hp
    rcases hp with rfl | rfl <;> constructor <;> simp <;> omega

/-- Witness for C10 at `L = 5`, `H = 6`, `axis = 1`, `offset = -3`: the two
writes go to registers 7 and 8, inside the block `[5, 10]`. -/
theorem magOffset_write_bounds_witness :
    LSM9DS1_magOffset 5 6 1 (-3) =
      [(7, bits16 (-3) &&& 0x00FF), (8, (bits16 (-3) &&& 0xFF00) >>> 8)] :=
  ((magOffset_write_bounds 5 6 1 (-3)).2 (by norm_num)).1

/- ### Claim C7 -/

/-- C7: at every point where bias is published — the end of
`LSM9DS1_calibrate` for gyro and accel and the end of
`LSM9DS1_calibrateMag` for the magnetometer — the stored physical bias on
each axis equals the current resolution times the stored raw bias. -/
theorem bias_publish_consistency (gRes aRes mRes : ℚ) (a0 eA loadIn : Bool)
    (samples L H : ℕ) (gRead aRead mags : ℕ → Triple) :
    ∀ i : Fin 3,
      (LSM9DS1_calibrate gRes aRes a0 eA samples gRead aRead).gBias.get i =
        gRes * ((LSM9DS1_calibrate gRes aRes a0 eA samples gRead aRead).gBiasRaw.get i)
      ∧ (LSM9DS1_calibrate gRes aRes a0 eA samples gRead aRead).aBias.get i =
        aRes * ((LSM9DS1_calibrate gRes aRes a0 eA samples gRead aRead).aBiasRaw.get i)
      ∧ (LSM9DS1_calibrateMag L H mRes mags loadIn).mBias.get i =
        mRes * ((LSM9DS1_calibrateMag L H mRes mags loadIn).mBiasRaw.get i) := by
  intro i
  fin_cases i <;> exact ⟨rfl, rfl, rfl⟩

/- ### Claim C4 -/

/-- C4 (amended): when the transport returns fewer bytes than requested, the
triplet readers abandon the read and leave the caller's prior output values
unchanged (no partial-axis update); the single-axis readers, however, return
the literal `0` instead of a prior value. -/
theorem read_short_frame (autoCalc : Bool) (bias prev : Triple) (axis : Fin 3)
    (resp resp2 : BurstResp) (h6 : resp.n ≠ 6) (h2 : resp2.n ≠ 2) :
    LSM9DS1_readGyro autoCalc bias prev resp = prev
    ∧ LSM9DS1_readAccel autoCalc bias prev resp = prev
    ∧ LSM9DS1_readMag prev resp = prev
    ∧ LSM9DS1_readGyroAxis autoCalc bias axis resp2 = 0
    ∧ LSM9DS1_readAccelAxis autoCalc bias axis resp2 = 0
    ∧ LSM9DS1_readMagAxis axis resp2 = 0 := by
  unfold LSM9DS1_readGyro LSM9DS1_readAccel LSM9DS1_readMag LSM9DS1_readGyroAxis
    LSM9DS1_readAccelAxis LSM9DS1_readMagAxis
  simp only [if_neg h6, if_neg h2]
  exact ⟨trivial, trivial, trivial, trivial, trivial, trivial⟩

/-- Witness for C4 (amended) on a 3-of-6-byte short read with prior output
`(7, 8, 9)`. -/
theorem read_short_frame_witness :
    LSM9DS1_readGyro false ⟨0, 0, 0⟩ ⟨7, 8, 9⟩ ⟨3, [1, 2, 3]⟩ = ⟨7, 8, 9⟩ :=
  (read_short_frame false ⟨0, 0, 0⟩ ⟨7, 8, 9⟩ 0 ⟨3, [1, 2, 3]⟩ ⟨0, []⟩
    (by norm_num) (by norm_num)).1

/-- C4 counterexample: on a short transport read (0 of 2 bytes returned) the
single-axis readers return the substituted value `0` (`return 0;` in
`LSM9DS1_readAccelAxis`/`LSM9DS1_readMagAxis`), so the claim's "no zero value
is substituted for the reading" is false for the single-axis readers — a
caller cannot distinguish this sentinel from a genuine zero reading, and no
prior value is preserved. -/
theorem readAxis_zero_substitution :
    LSM9DS1_readAccelAxis false ⟨7, 7, 7⟩ 0 ⟨0, []⟩ = 0
    ∧ LSM9DS1_readMagAxis 1 ⟨0, []⟩ = 0 := by
  exact ⟨by decide, by decide⟩

/- ### Claim C5 -/

/-- C5 (amended): `LSM9DS1_begin` polls the identity register of both
sub-devices (the first two bus events) and returns the combined 16-bit
identity word itself (`LSM9DS1_isConnected` is the operation that returns
whether that word matches the expected constant); the gyro and accel
initialization writes appear in the trace unconditionally — the trace does
not depend on the identity bytes read, so a mismatch never halts
initialization. -/
theorem begin_identity_and_init (s0 : IMUSettings) (gRes0 aRes0 mRes0 : ℚ)
    (mTest xgTest : ℕ) :
    (LSM9DS1_begin s0 gRes0 aRes0 mRes0 mTest xgTest).ret = ((xgTest <<< 8) ||| mTest)
    ∧ (LSM9DS1_begin s0 gRes0 aRes0 mRes0 mTest xgTest).trace =
        [BusEv.readM MReg.WHO_AM_I_M, BusEv.readXG XgReg.WHO_AM_I_XG]
          ++ LSM9DS1_initGyro (LSM9DS1_constrainScales s0)
          ++ LSM9DS1_initAccel (LSM9DS1_constrainScales s0)
    ∧ (LSM9DS1_isConnected mTest xgTest = true ↔
        ((xgTest <<< 8) ||| mTest) = ((WHO_AM_I_AG_RSP <<< 8) ||| WHO_AM_I_M_RSP)) := by
  refine ⟨rfl, rfl, ?_⟩
  simp [LSM9DS1_isConnected]

/-- C5 counterexample: with identity bytes `(mTest, xgTest) = (0x3D, 0)` the
combined identity `0x003D` does not match the expected `0x683D`, yet
`LSM9DS1_begin` returns the nonzero (C-truthy) value 61 — so the value
`begin` returns is the raw identity word, not "whether the combined 16-bit
identity matches the expected constant". -/
theorem begin_ret_not_match :
    (LSM9DS1_begin LSM9DS1_init 0 0 0 0x3D 0).ret = 61
    ∧ LSM9DS1_isConnected 0x3D 0 = false
    ∧ ¬ (((LSM9DS1_begin LSM9DS1_init 0 0 0 0x3D 0).ret ≠ 0) ↔
          LSM9DS1_isConnected 0x3D 0 = true) := by
  refine ⟨by decide, by decide, by decide⟩

/- ### Claim C6 -/

/-- C6: the resolution computation returns the documented sensitivity constant
for every supported scale (independently of the prior resolution value), and
for any out-of-set scale `LSM9DS1_begin` — which runs `constrainScales` before
computing the resolutions — produces the default-scale constant. -/
theorem resolution_lookup_and_default :
    (∀ q : ℚ,
      LSM9DS1_calcgRes 245 q = SENSITIVITY_GYROSCOPE_245
      ∧ LSM9DS1_calcgRes 500 q = SENSITIVITY_GYROSCOPE_500
      ∧ LSM9DS1_calcgRes 2000 q = SENSITIVITY_GYROSCOPE_2000
      ∧ LSM9DS1_calcaRes 2 q = SENSITIVITY_ACCELEROMETER_2
      ∧ LSM9DS1_calcaRes 4 q = SENSITIVITY_ACCELEROMETER_4
      ∧ LSM9DS1_calcaRes 8 q = SENSITIVITY_ACCELEROMETER_8
      ∧ LSM9DS1_calcaRes 16 q = SENSITIVITY_ACCELEROMETER_16
      ∧ LSM9DS1_calcmRes 4 q = SENSITIVITY_MAGNETOMETER_4
      ∧ LSM9DS1_calcmRes 8 q = SENSITIVITY_MAGNETOMETER_8
      ∧ LSM9DS1_calcmRes 12 q = SENSITIVITY_MAGNETOMETER_12
      ∧ LSM9DS1_calcmRes 16 q = SENSITIVITY_MAGNETOMETER_16)
    ∧ (∀ (s0 : IMUSettings) (gRes0 aRes0 mRes0 : ℚ) (mTest xgTest : ℕ),
      (s0.gyro.scale ≠ 245 → s0.gyro.scale ≠ 500 → s0.gyro.scale ≠ 2000 →
        (LSM9DS1_begin s0 gRes0 aRes0 mRes0 mTest xgTest).gRes = SENSITIVITY_GYROSCOPE_245)
      ∧ (s0.accel.scale ≠ 2 → s0.accel.scale ≠ 4 → s0.accel.scale ≠ 8 → s0.accel.scale ≠ 16 →
        (LSM9DS1_begin s0 gRes0 aRes0 mRes0 mTest xgTest).aRes = SENSITIVITY_ACCELEROMETER_2)
      ∧ (s0.mag.scale ≠ 4 → s0.mag.scale ≠ 8 → s0.mag.scale ≠ 12 → s0.mag.scale ≠ 16 →
        (LSM9DS1_begin s0 gRes0 aRes0 mRes0 mTest xgTest).mRes = SENSITIVITY_MAGNETOMETER_4)) := by
  constructor
  · intro q
    exact ⟨rfl, rfl, rfl, rfl, rfl, rfl, rfl, rfl, rfl, rfl, rfl⟩
  · intro s0 gRes0 aRes0 mRes0 mTest xgTest
    refine ⟨?_, ?_, ?_⟩
    · intro h1 h2 h3
      simp [LSM9DS1_begin, LSM9DS1_constrainScales, LSM9DS1_calcgRes, h1, h2, h3]
    · intro h1 h2 h3 h4
      simp [LSM9DS1_begin, LSM9DS1_constrainScales, LSM9DS1_calcaRes, h1, h2, h3, h4]
    · intro h1 h2 h3 h4
      simp [LSM9DS1_begin, LSM9DS1_constrainScales, LSM9DS1_calcmRes, h1, h2, h3, h4]

/-- Witness for C6: a settings record with unsupported scales (gyro 300,
accel 3, mag 5) resolves to the three default sensitivity constants on
`begin`. -/
theorem resolution_lookup_and_default_witness :
    (LSM9DS1_begin { LSM9DS1_init with
        gyro := { LSM9DS1_init.gyro with scale := 300 }
        accel := { LSM9DS1_init.accel with scale := 3 }
        mag := { LSM9DS1_init.mag with scale := 5 } } 0 0 0 0 0).gRes
      = SENSITIVITY_GYROSCOPE_245
    ∧ (LSM9DS1_begin { LSM9DS1_init with
        gyro := { LSM9DS1_init.gyro with scale := 300 }
        accel := { LSM9DS1_init.accel with scale := 3 }
        mag := { LSM9DS1_init.mag with scale := 5 } } 0 0 0 0 0).aRes
      = SENSITIVITY_ACCELEROMETER_2
    ∧ (LSM9DS1_begin { LSM9DS1_init with
        gyro := { LSM9DS1_init.gyro with scale := 300 }
        accel := { LSM9DS1_init.accel with scale := 3 }
        mag := { LSM9DS1_init.mag with scale := 5 } } 0 0 0 0 0).mRes
      = SENSITIVITY_MAGNETOMETER_4 := by
  have h := resolution_lookup_and_default.2 { LSM9DS1_init with
    gyro := { LSM9DS1_init.gyro with scale := 300 }
    accel := { LSM9DS1_init.accel with scale := 3 }
    mag := { LSM9DS1_init.mag with scale := 5 } } 0 0 0 0 0
  exact ⟨h.1 (by decide) (by decide) (by decide),
    h.2.1 (by decide) (by decide) (by decide) (by decide),
    h.2.2 (by decide) (by decide) (by decide) (by decide)⟩

/- ### Claim C8 -/

/-- C8: every scale and ODR setter preserves every bit of the affected control
register outside its own field (for the final register value: the byte written
back, or the untouched register when `set*ODR` receives a rate with zero low
bits and performs no write), and every scale setter ends with a resolution
that is a function of the newly set scale alone (the trailing `calc*Res` call,
whose result no longer depends on the prior resolution). -/
theorem setters_frame_and_consistency (gScl aScl mScl gRate aRate mRate old : ℕ)
    (gRes0 aRes0 mRes0 : ℚ) :
    ((LSM9DS1_setGyroScale gScl old gRes0).1 &&& 0xE7 = old &&& 0xE7
      ∧ ∀ q : ℚ, (LSM9DS1_setGyroScale gScl old gRes0).2.2 =
          LSM9DS1_calcgRes (LSM9DS1_setGyroScale gScl old gRes0).2.1 q)
    ∧ ((LSM9DS1_setAccelScale aScl old aRes0).1 &&& 0xE7 = old &&& 0xE7
      ∧ ∀ q : ℚ, (LSM9DS1_setAccelScale aScl old aRes0).2.2 =
          LSM9DS1_calcaRes (LSM9DS1_setAccelScale aScl old aRes0).2.1 q)
    ∧ ((LSM9DS1_setMagScale mScl old mRes0).1 &&& 0x9F = old &&& 0x9F
      ∧ ∀ q : ℚ, (LSM9DS1_setMagScale mScl old mRes0).2.2 =
          LSM9DS1_calcmRes (LSM9DS1_setMagScale mScl old mRes0).2.1 q)
    ∧ ((LSM9DS1_setGyroODR gRate old).1.getD old &&& 0x1F = old &&& 0x1F)
    ∧ ((LSM9DS1_setAccelODR aRate old).1.getD old &&& 0x1F = old &&& 0x1F)
    ∧ ((LSM9DS1_setMagODR mRate old).1 &&& 0xE3 = old &&& 0xE3) := by
  have hid : ∀ x : ℕ, (x &&& 0xE7) &&& 0xE7 = x &&& 0xE7 := by
    intro x
    have := and_or_frame x 0 0xE7 (by decide)
    simpa using this
  have hid9F : ∀ x : ℕ, (x &&& 0x9F) &&& 0x9F = x &&& 0x9F := by
    intro x
    have := and_or_frame x 0 0x9F (by decide)
    simpa using this
  refine ⟨⟨?_, ?_⟩, ⟨?_, ?_⟩, ⟨?_, ?_⟩, ?_, ?_, ?_⟩
  · by_cases h5 : gScl = 500
    · simp only [LSM9DS1_setGyroScale, h5]
      exact and_or_frame _ _ _ (by decide)
    · by_cases h2 : gScl = 2000
      · simp only [LSM9DS1_setGyroScale, if_neg h5, h2, if_pos rfl]
        exact and_or_frame _ _ _ (by decide)
      · simp only [LSM9DS1_setGyroScale, if_neg h5, if_neg h2]
        exact hid old
  · intro q
    by_cases h5 : gScl = 500
    · simp [LSM9DS1_setGyroScale, h5, LSM9DS1_calcgRes]
    · by_cases h2 : gScl = 2000
      · simp [LSM9DS1_setGyroScale, h5, h2, LSM9DS1_calcgRes]
      · simp [LSM9DS1_setGyroScale, h5, h2, LSM9DS1_calcgRes]
  · by_cases h4 : aScl = 4
    · simp only [LSM9DS1_setAccelScale, h4, if_pos rfl]
      exact and_or_frame _ _ _ (by decide)
    · by_cases h8 : aScl = 8
      · simp only [LSM9DS1_setAccelScale, if_neg h4, h8, if_pos rfl]
        exact and_or_frame _ _ _ (by decide)
      · by_cases h16 : aScl = 16
        · simp only [LSM9DS1_setAccelScale, if_neg h4, if_neg h8, h16, if_pos rfl]
          exact and_or_frame _ _ _ (by decide)
        · simp only [LSM9DS1_setAccelScale, if_neg h4, if_neg h8, if_neg h16]
          exact hid old
  · intro q
    by_cases h4 : aScl = 4
    · simp [LSM9DS1_setAccelScale, h4, LSM9DS1_calcaRes]
    · by_cases h8 : aScl = 8
      · simp [LSM9DS1_setAccelScale, h4, h8, LSM9DS1_calcaRes]
      · by_cases h16 : aScl = 16
        · simp [LSM9DS1_setAccelScale, h4, h8, h16, LSM9DS1_calcaRes]
        · simp [LSM9DS1_setAccelScale, h4, h8, h16, LSM9DS1_calcaRes]
  · have hmask : (0xFF ^^^ (0x3 <<< 5) : ℕ) = 0x9F := by decide
    by_cases h8 : mScl = 8
    · simp only [LSM9DS1_setMagScale, h8, if_pos rfl, hmask]
      exact and_or_frame _ _ _ (by decide)
    · by_cases h12 : mScl = 12
      · simp only [LSM9DS1_setMagScale, if_neg h8, h12, if_pos rfl, hmask]
        exact and_or_frame _ _ _ (by decide)
      · by_cases h16 : mScl = 16
        · simp only [LSM9DS1_setMagScale, if_neg h8, if_neg h12, h16, if_pos rfl, hmask]
          exact and_or_frame _ _ _ (by decide)
        · simp only [LSM9DS1_setMagScale, if_neg h8, if_neg h12, if_neg h16, hmask]
          exact hid9F old
  · intro q
    by_cases h8 : mScl = 8
    · simp [LSM9DS1_setMagScale, h8, LSM9DS1_calcmRes]
    · by_cases h12 : mScl = 12
      · simp [LSM9DS1_setMagScale, h8, h12, LSM9DS1_calcmRes]
      · by_cases h16 : mScl = 16
        · simp [LSM9DS1_setMagScale, h8, h12, h16, LSM9DS1_calcmRes]
        · simp [LSM9DS1_setMagScale, h8, h12, h16, LSM9DS1_calcmRes]
  · by_cases h : gRate &&& 0x07 = 0
    · simp [LSM9DS1_setGyroODR, h]
    · have hmask : (0xFF ^^^ (0x7 <<< 5) : ℕ) = 0x1F := by decide
      simp only [LSM9DS1_setGyroODR, if_pos h, Option.getD_some, hmask]
      exact and_or_frame _ _ _ (shift5_and_0x1F gRate)
  · by_cases h : aRate &&& 0x07 = 0
    · simp [LSM9DS1_setAccelODR, h]
    · simp only [LSM9DS1_setAccelODR, if_pos h, Option.getD_some]
      exact and_or_frame _ _ _ (shift5_and_0x1F aRate)
  · have hmask : (0xFF ^^^ (0x7 <<< 2) : ℕ) = 0xE3 := by decide
    simp only [LSM9DS1_setMagODR, hmask]
    exact and_or_frame _ _ _ (shift2_and_0xE3 mRate)

/- ### Claim C3 -/

/-- C3: after `LSM9DS1_calibrate` runs with `autoCalc = true` the
auto-calibration flag is true, and every subsequent successful gyro or accel
read (triplet or single-axis) subtracts the stored raw bias from each axis in
`int16_t` arithmetic before returning; in particular a read whose raw triplet
equals the stored raw bias triplet yields the zero triplet. -/
theorem calibrate_enables_bias_subtraction (gRes aRes : ℚ) (a0 : Bool)
    (samples : ℕ) (gRead aRead : ℕ → Triple) (out : CalibOut)
    (hout : out = LSM9DS1_calibrate gRes aRes a0 true samples gRead aRead) :
    out.autoCalc = true
    ∧ (∀ (resp : BurstResp) (prev : Triple), resp.n = 6 →
        LSM9DS1_readGyro out.autoCalc out.gBiasRaw prev resp =
          ⟨wrap16 ((rawOfResp resp).x - out.gBiasRaw.x),
           wrap16 ((rawOfResp resp).y - out.gBiasRaw.y),
           wrap16 ((rawOfResp resp).z - out.gBiasRaw.z)⟩
        ∧ (rawOfResp resp = out.gBiasRaw →
            LSM9DS1_readGyro out.autoCalc out.gBiasRaw prev resp = ⟨0, 0, 0⟩))
    ∧ (∀ (resp : BurstResp) (prev : Triple), resp.n = 6 →
        LSM9DS1_readAccel out.autoCalc out.aBiasRaw prev resp =
          ⟨wrap16 ((rawOfResp resp).x - out.aBiasRaw.x),
           wrap16 ((rawOfResp resp).y - out.aBiasRaw.y),
           wrap16 ((rawOfResp resp).z - out.aBiasRaw.z)⟩
        ∧ (rawOfResp resp = out.aBiasRaw →
            LSM9DS1_readAccel out.autoCalc out.aBiasRaw prev resp = ⟨0, 0, 0⟩))
    ∧ (∀ (resp : BurstResp) (axis : Fin 3), resp.n = 2 →
        LSM9DS1_readGyroAxis out.autoCalc out.gBiasRaw axis resp =
          wrap16 (assemble16 (resp.data.getD 0 0) (resp.data.getD 1 0) - out.gBiasRaw.get axis)
        ∧ LSM9DS1_readAccelAxis out.autoCalc out.aBiasRaw axis resp =
          wrap16 (assemble16 (resp.data.getD 0 0) (resp.data.getD 1 0) - out.aBiasRaw.get axis)) := by
  have hA : out.autoCalc = true := by rw [hout]; rfl
  refine ⟨hA, ?_, ?_, ?_⟩
  · intro resp prev h6
    have heq : LSM9DS1_readGyro out.autoCalc out.gBiasRaw prev resp =
        ⟨wrap16 ((rawOfResp resp).x - out.gBiasRaw.x),
         wrap16 ((rawOfResp resp).y - out.gBiasRaw.y),
         wrap16 ((rawOfResp resp).z - out.gBiasRaw.z)⟩ := by
      rw [hA]
      simp [LSM9DS1_readGyro, h6]
    refine ⟨heq, ?_⟩
    intro hraw
    rw [heq, hraw]
    simp [sub_self, wrap16_zero]
  · intro resp prev h6
    have heq : LSM9DS1_readAccel out.autoCalc out.aBiasRaw prev resp =
        ⟨wrap16 ((rawOfResp resp).x - out.aBiasRaw.x),
         wrap16 ((rawOfResp resp).y - out.aBiasRaw.y),
         wrap16 ((rawOfResp resp).z - out.aBiasRaw.z)⟩ := by
      rw [hA]
      simp [LSM9DS1_readAccel, h6]
    refine ⟨heq, ?_⟩
    intro hraw
    rw [heq, hraw]
    simp [sub_self, wrap16_zero]
  · intro resp axis h2
    rw [hA]
    constructor
    · simp [LSM9DS1_readGyroAxis, h2]
    · simp [LSM9DS1_readAccelAxis, h2]

/-- Witness for C3: after a 31-sample calibration with constant readings
`(1,2,3)` / `(4,5,6)`, a gyro read whose raw triplet equals the stored raw
gyro bias returns the zero triplet. -/
theorem calibrate_enables_bias_subtraction_witness :
    LSM9DS1_readGyro
      (LSM9DS1_calibrate 0 0 false true 31 (fun _ => ⟨1, 2, 3⟩) (fun _ => ⟨4, 5, 6⟩)).autoCalc
      (LSM9DS1_calibrate 0 0 false true 31 (fun _ => ⟨1, 2, 3⟩) (fun _ => ⟨4, 5, 6⟩)).gBiasRaw
      ⟨9, 9, 9⟩ ⟨6, [1, 0, 2, 0, 3, 0]⟩ = ⟨0, 0, 0⟩ :=
  ((calibrate_enables_bias_subtraction 0 0 false 31 (fun _ => ⟨1, 2, 3⟩)
      (fun _ => ⟨4, 5, 6⟩)
      (LSM9DS1_calibrate 0 0 false true 31 (fun _ => ⟨1, 2, 3⟩) (fun _ => ⟨4, 5, 6⟩))
      rfl).2.1 ⟨6, [1, 0, 2, 0, 3, 0]⟩ ⟨9, 9, 9⟩ rfl).2 (by decide)

/- ### Claim C1 -/

theorem Triple.eq_of_get {s t : Triple} (h : ∀ i : Fin 3, s.get i = t.get i) : s = t := by
  obtain ⟨a, b, c⟩ := s
  obtain ⟨d, e, f⟩ := t
  have hx : a = d := h 0
  have hy : b = e := h 1
  have hz : c = f := h 2
  subst hx
  subst hy
  subst hz
  rfl

theorem calibrate_gBiasRaw_get (gRes aRes : ℚ) (a0 eA : Bool) (samples : ℕ)
    (gRead aRead : ℕ → Triple) (i : Fin 3) :
    (LSM9DS1_calibrate gRes aRes a0 eA samples gRead aRead).gBiasRaw.get i =
      wrap16 (Int.tdiv ((List.range samples).map (fun k => (gRead k).get i)).sum
        (samples : ℤ)) := by
  fin_cases i <;> rfl

theorem calibrate_aBiasRaw_z (gRes aRes : ℚ) (a0 eA : Bool) (samples : ℕ)
    (gRead aRead : ℕ → Triple) :
    (LSM9DS1_calibrate gRes aRes a0 eA samples gRead aRead).aBiasRaw.z =
      wrap16 (Int.tdiv
        ((List.range samples).map (fun k => (aRead k).z - gravityTicks aRes)).sum
        (samples : ℤ)) := rfl

/-- C1 (amended): for a FIFO batch of `samples` entries (`31 ≤ samples ≤ 63`
by the poll-exit condition and the 6-bit mask) of in-range readings, the
published raw gyro bias and the raw accel X/Y bias on each axis equal the
exact C-integer-division quotient of the 32-bit per-axis sum by `samples`
(these quotients always fit `int16_t`); the raw accel Z bias equals the
quotient of the sum of `az_k - (int16_t)(1/aRes)` by `samples` *reduced into
`int16_t`* (the `int16_t` store wraps when that quotient is below -32768 —
this reduction is the only amendment, see the counterexample).  On a batch
of identical triplets `t` / `u` the published biases are exactly `t` and
`(u.x, u.y, wrap16 (u.z - (int16_t)(1/aRes)))`. -/
theorem calibrate_bias_quotients (gRes aRes : ℚ) (a0 eA : Bool) (samples : ℕ)
    (gRead aRead : ℕ → Triple)
    (h31 : 31 ≤ samples) (h63 : samples ≤ 63)
    (hg : ∀ k, k < samples → (gRead k).InRange)
    (ha : ∀ k, k < samples → (aRead k).InRange) :
    (∀ i : Fin 3,
      (LSM9DS1_calibrate gRes aRes a0 eA samples gRead aRead).gBiasRaw.get i =
        Int.tdiv ((List.range samples).map (fun k => (gRead k).get i)).sum (samples : ℤ))
    ∧ (LSM9DS1_calibrate gRes aRes a0 eA samples gRead aRead).aBiasRaw.x =
        Int.tdiv ((List.range samples).map (fun k => (aRead k).x)).sum (samples : ℤ)
    ∧ (LSM9DS1_calibrate gRes aRes a0 eA samples gRead aRead).aBiasRaw.y =
        Int.tdiv ((List.range samples).map (fun k => (aRead k).y)).sum (samples : ℤ)
    ∧ (LSM9DS1_calibrate gRes aRes a0 eA samples gRead aRead).aBiasRaw.z =
        wrap16 (Int.tdiv
          ((List.range samples).map (fun k => (aRead k).z - gravityTicks aRes)).sum
          (samples : ℤ))
    ∧ (∀ t u : Triple, t.InRange →
        (∀ k, k < samples → gRead k = t) → (∀ k, k < samples → aRead k = u) →
        (LSM9DS1_calibrate gRes aRes a0 eA samples gRead aRead).gBiasRaw = t
        ∧ (LSM9DS1_calibrate gRes aRes a0 eA samples gRead aRead).aBiasRaw =
            ⟨u.x, u.y, wrap16 (u.z - gravityTicks aRes)⟩) := by
  have hNpos : (0 : ℤ) < (samples : ℤ) := by exact_mod_cast (by omega : 0 < samples)
  have hNne : ((samples : ℤ)) ≠ 0 := by omega
  have hkey : ∀ (f : ℕ → ℤ), (∀ k, k < samples → inInt16 (f k)) →
      wrap16 (Int.tdiv ((List.range samples).map f).sum (samples : ℤ)) =
        Int.tdiv ((List.range samples).map f).sum (samples : ℤ) := by
    intro f hf
    apply wrap16_eq_of_inInt16
    have hlen : ((List.range samples).map f).length = samples := by simp
    have hmem : ∀ v ∈ (List.range samples).map f, inInt16 v := by
      intro v hv
      simp only [List.mem_map, List.mem_range] at hv
      obtain ⟨k, hk, rfl⟩ := hv
      exact hf k hk
    have hr := tdiv_sum_inInt16 (l := (List.range samples).map f) (by omega) hmem
    rwa [hlen] at hr
  have hconst : ∀ (f : ℕ → ℤ) (c : ℤ), (∀ k, k < samples → f k = c) →
      ((List.range samples).map f).sum = (samples : ℤ) * c := by
    intro f c hf
    have hmap : (List.range samples).map f = (List.range samples).map (fun _ => c) :=
      List.map_congr_left (fun k hk => hf k (List.mem_range.mp hk))
    rw [hmap, List.map_const']
    simp [List.sum_replicate, nsmul_eq_mul]
  refine ⟨?_, ?_, ?_, ?_, ?_⟩
  · intro i
    rw [calibrate_gBiasRaw_get]
    exact hkey _ (fun k hk => Triple.inRange_get (hg k hk) i)
  · exact hkey (fun k => (aRead k).x) (fun k hk => (ha k hk).1)
  · exact hkey (fun k => (aRead k).y) (fun k hk => (ha k hk).2.1)
  · exact calibrate_aBiasRaw_z gRes aRes a0 eA samples gRead aRead
  · intro t u ht hgt hau
    have hu : u.InRange := by
      have h0 := ha 0 (by omega)
      rwa [hau 0 (by omega)] at h0
    constructor
    · apply Triple.eq_of_get
      intro i
      rw [calibrate_gBiasRaw_get,
        hconst (fun k => (gRead k).get i) (t.get i)
          (fun k hk => by show (gRead k).get i = t.get i; rw [hgt k hk]),
        Int.mul_tdiv_cancel_left _ hNne]
      exact wrap16_eq_of_inInt16 (Triple.inRange_get ht i)
    · apply Triple.eq_of_get
      intro i
      fin_cases i
      · show (LSM9DS1_calibrate gRes aRes a0 eA samples gRead aRead).aBiasRaw.x = u.x
        have hx : (LSM9DS1_calibrate gRes aRes a0 eA samples gRead aRead).aBiasRaw.x =
            wrap16 (Int.tdiv ((List.range samples).map (fun k => (aRead k).x)).sum
              (samples : ℤ)) := rfl
        rw [hx, hconst (fun k => (aRead k).x) u.x
          (fun k hk => by show (aRead k).x = u.x; rw [hau k hk]),
          Int.mul_tdiv_cancel_left _ hNne]
        exact wrap16_eq_of_inInt16 hu.1
      · show (LSM9DS1_calibrate gRes aRes a0 eA samples gRead aRead).aBiasRaw.y = u.y
        have hy : (LSM9DS1_calibrate gRes aRes a0 eA samples gRead aRead).aBiasRaw.y =
            wrap16 (Int.tdiv ((List.range samples).map (fun k => (aRead k).y)).sum
              (samples : ℤ)) := rfl
        rw [hy, hconst (fun k => (aRead k).y) u.y
          (fun k hk => by show (aRead k).y = u.y; rw [hau k hk]),
          Int.mul_tdiv_cancel_left _ hNne]
        exact wrap16_eq_of_inInt16 hu.2.1
      · show (LSM9DS1_calibrate gRes aRes a0 eA samples gRead aRead).aBiasRaw.z =
          wrap16 (u.z - gravityTicks aRes)
        rw [calibrate_aBiasRaw_z,
          hconst (fun k => (aRead k).z - gravityTicks aRes) (u.z - gravityTicks aRes)
            (fun k hk => by show (aRead k).z - _ = _; rw [hau k hk]),
          Int.mul_tdiv_cancel_left _ hNne]

/-- Witness for C1 (amended): a batch of 31 identical in-range triplets
`(1,2,3)` / `(4,5,6)` at the 2 g resolution publishes raw biases exactly
`(1,2,3)` and `(4, 5, wrap16 (6 - (int16_t)(1/aRes)))`. -/
theorem calibrate_bias_quotients_witness :
    (LSM9DS1_calibrate 0.00875 0.000061 false true 31
      (fun _ => ⟨1, 2, 3⟩) (fun _ => ⟨4, 5, 6⟩)).gBiasRaw = ⟨1, 2, 3⟩
    ∧ (LSM9DS1_calibrate 0.00875 0.000061 false true 31
      (fun _ => ⟨1, 2, 3⟩) (fun _ => ⟨4, 5, 6⟩)).aBiasRaw =
        ⟨4, 5, wrap16 (6 - gravityTicks 0.000061)⟩ :=
  (calibrate_bias_quotients 0.00875 0.000061 false true 31
    (fun _ => ⟨1, 2, 3⟩) (fun _ => ⟨4, 5, 6⟩) (by norm_num) (by norm_num)
    (fun k hk => (by decide : Triple.InRange ⟨1, 2, 3⟩))
    (fun k hk => (by decide : Triple.InRange ⟨4, 5, 6⟩))).2.2.2.2
    ⟨1, 2, 3⟩ ⟨4, 5, 6⟩ (by decide) (fun k hk => rfl) (fun k hk => rfl)

/-- C1 counterexample: on a batch of 31 identical triplets with `az = -32768`
at the 2 g resolution (`(int16_t)(1/aRes) = 16393`), the per-sample Z term is
`-49161`, so the claimed raw accel Z bias is `-49161`; but the published
`int16_t` value is the wrapped `16375` — the claim's exact-quotient equality
fails on the accel Z axis. -/
theorem calibrate_accelZ_counterexample :
    (LSM9DS1_calibrate 0.00875 0.000061 false true 31 (fun _ => ⟨0, 0, 0⟩)
        (fun _ => ⟨0, 0, -32768⟩)).aBiasRaw.z = 16375
    ∧ (-32768 : ℤ) - gravityTicks 0.000061 = -49161
    ∧ (16375 : ℤ) ≠ -49161 := by
  have hgt : gravityTicks 0.000061 = 16393 := by
    norm_num [gravityTicks, ratTrunc]
    decide
  refine ⟨?_, by rw [hgt]; decide, by decide⟩
  rw [calibrate_aBiasRaw_z]
  simp only [hgt]
  decide

/- ### Claim C2 -/

theorem Triple.get_zero (j : Fin 3) : (⟨0, 0, 0⟩ : Triple).get j = 0 := by
  fin_cases j <;> rfl

theorem calibrateMag_mBiasRaw_get (L H : ℕ) (mRes : ℚ) (mags : ℕ → Triple)
    (loadIn : Bool) (j : Fin 3) :
    (LSM9DS1_calibrateMag L H mRes mags loadIn).mBiasRaw.get j =
      wrap16 (Int.tdiv
        ((((List.range 128).map mags).foldl magMinMaxStep (⟨0, 0, 0⟩, ⟨0, 0, 0⟩)).2.get j
          + (((List.range 128).map mags).foldl magMinMaxStep (⟨0, 0, 0⟩, ⟨0, 0, 0⟩)).1.get j)
        2) := by
  fin_cases j <;> rfl

/-- C2: `LSM9DS1_calibrateMag` consumes exactly 128 magnetometer triplets (its
result depends only on the first 128 reads; each read in the source happens
only after the any-axis data-ready poll succeeded — the poll loop, modelled by
`pollMagReady`, terminates exactly at the first status byte with bit
`ALL_AXIS` set); it maintains per-axis running min/max both initialized to
zero, publishes the truncating quotient `(max + min) / 2` (which always fits
`int16_t`, so the store is exact) as raw offset together with its
physical-unit conversion, and with `loadIn` writes each raw offset low byte
first then high byte to the per-axis offset-trim register pair at stride 2. -/
theorem calibrateMag_behavior (L H : ℕ) (mRes : ℚ) (mags : ℕ → Triple)
    (loadIn : Bool) (hm : ∀ k, k < 128 → (mags k).InRange) :
    (∀ j : Fin 3,
      (LSM9DS1_calibrateMag L H mRes mags loadIn).mBiasRaw.get j =
        Int.tdiv
          (((List.range 128).map (fun k => (mags k).get j)).foldl max 0
            + ((List.range 128).map (fun k => (mags k).get j)).foldl min 0) 2
      ∧ (LSM9DS1_calibrateMag L H mRes mags loadIn).mBias.get j =
          mRes * ((LSM9DS1_calibrateMag L H mRes mags loadIn).mBiasRaw.get j))
    ∧ (∀ mags2 : ℕ → Triple, (∀ k, k < 128 → mags2 k = mags k) →
        LSM9DS1_calibrateMag L H mRes mags2 loadIn = LSM9DS1_calibrateMag L H mRes mags loadIn)
    ∧ (loadIn = true →
        (LSM9DS1_calibrateMag L H mRes mags loadIn).writes =
          [(L, bits16 (LSM9DS1_calibrateMag L H mRes mags loadIn).mBiasRaw.x &&& 0x00FF),
           (H, (bits16 (LSM9DS1_calibrateMag L H mRes mags loadIn).mBiasRaw.x &&& 0xFF00) >>> 8),
           (L + 2, bits16 (LSM9DS1_calibrateMag L H mRes mags loadIn).mBiasRaw.y &&& 0x00FF),
           (H + 2, (bits16 (LSM9DS1_calibrateMag L H mRes mags loadIn).mBiasRaw.y &&& 0xFF00) >>> 8),
           (L + 4, bits16 (LSM9DS1_calibrateMag L H mRes mags loadIn).mBiasRaw.z &&& 0x00FF),
           (H + 4, (bits16 (LSM9DS1_calibrateMag L H mRes mags loadIn).mBiasRaw.z &&& 0xFF00) >>> 8)])
    ∧ (∀ (status : ℕ → ℕ) (fuel t : ℕ), pollMagReady status fuel = some t →
        LSM9DS1_magAvailable (status t) ALL_AXIS ≠ 0
        ∧ ∀ u, u < t → LSM9DS1_magAvailable (status u) ALL_AXIS = 0) := by
  have hsnd : ∀ j : Fin 3,
      (((List.range 128).map mags).foldl magMinMaxStep (⟨0, 0, 0⟩, ⟨0, 0, 0⟩)).2.get j
        = ((List.range 128).map (fun k => (mags k).get j)).foldl max 0 :=
    fun j =>
    calc (((List.range 128).map mags).foldl magMinMaxStep (⟨0, 0, 0⟩, ⟨0, 0, 0⟩)).2.get j
        = ((List.range 128).map mags).foldl
            (fun a t => if t.get j > a then t.get j else a) ((⟨0, 0, 0⟩ : Triple).get j) :=
          foldl_minmax_snd _ _ _ j
      _ = (((List.range 128).map mags).map (fun t : Triple => t.get j)).foldl max
            ((⟨0, 0, 0⟩ : Triple).get j) := foldl_if_gt_eq_max _ _ _
      _ = ((List.range 128).map (fun k => (mags k).get j)).foldl max 0 := by
          rw [List.map_map, Triple.get_zero]
          rfl
  have hfst : ∀ j : Fin 3,
      (((List.range 128).map mags).foldl magMinMaxStep (⟨0, 0, 0⟩, ⟨0, 0, 0⟩)).1.get j
        = ((List.range 128).map (fun k => (mags k).get j)).foldl min 0 :=
    fun j =>
    calc (((List.range 128).map mags).foldl magMinMaxStep (⟨0, 0, 0⟩, ⟨0, 0, 0⟩)).1.get j
        = ((List.range 128).map mags).foldl
            (fun a t => if t.get j < a then t.get j else a) ((⟨0, 0, 0⟩ : Triple).get j) :=
          foldl_minmax_fst _ _ _ j
      _ = (((List.range 128).map mags).map (fun t : Triple => t.get j)).foldl min
            ((⟨0, 0, 0⟩ : Triple).get j) := foldl_if_lt_eq_min _ _ _
      _ = ((List.range 128).map (fun k => (mags k).get j)).foldl min 0 := by
          rw [List.map_map, Triple.get_zero]
          rfl
  have hmem : ∀ (j : Fin 3) (v : ℤ),
      v ∈ (List.range 128).map (fun k => (mags k).get j) → inInt16 v := by
    intro j v hv
    simp only [List.mem_map, List.mem_range] at hv
    obtain ⟨k, hk, rfl⟩ := hv
    exact Triple.inRange_get (hm k hk) j
  refine ⟨?_, ?_, ?_, ?_⟩
  · intro j
    constructor
    · rw [calibrateMag_mBiasRaw_get, hsnd j, hfst j]
      apply wrap16_eq_of_inInt16
      have hub : ((List.range 128).map (fun k => (mags k).get j)).foldl max 0 ≤ 32767 :=
        foldl_max_le (by norm_num) (fun v hv => (hmem j v hv).2)
      have h0M : (0 : ℤ) ≤ ((List.range 128).map (fun k => (mags k).get j)).foldl max 0 :=
        le_foldl_max _ _
      have hlb : (-32768 : ℤ) ≤ ((List.range 128).map (fun k => (mags k).get j)).foldl min 0 :=
        le_foldl_min (by norm_num) (fun v hv => (hmem j v hv).1)
      have hm0 : ((List.range 128).map (fun k => (mags k).get j)).foldl min 0 ≤ 0 :=
        foldl_min_le _ _
      constructor
      · have h2 := neg_le_tdiv_of_le (N := 2) (B := 32768)
          (s := ((List.range 128).map (fun k => (mags k).get j)).foldl max 0
            + ((List.range 128).map (fun k => (mags k).get j)).foldl min 0)
          (by norm_num) (by norm_num) (by omega)
        omega
      · exact tdiv_le_of_le_mul (by norm_num) (by norm_num) (by omega)
    · fin_cases j <;> rfl
  · intro mags2 h
    have hmap : (List.range 128).map mags2 = (List.range 128).map mags :=
      List.map_congr_left (fun k hk => h k (List.mem_range.mp hk))
    unfold LSM9DS1_calibrateMag
    rw [hmap]
  · intro hl
    subst hl
    simp [LSM9DS1_calibrateMag, LSM9DS1_magOffset]
  · intro status fuel t
    induction fuel generalizing status t with
    | zero =>
      intro h
      simp [pollMagReady] at h
    | succ n ih =>
      intro h
      simp only [pollMagReady] at h
      by_cases hb : LSM9DS1_magAvailable (status 0) ALL_AXIS ≠ 0
      · rw [if_pos hb] at h
        have ht : t = 0 := by
          simpa using h.symm
        subst ht
        exact ⟨hb, fun u hu => absurd hu (by omega)⟩
      · rw [if_neg hb] at h
        have hb0 : LSM9DS1_magAvailable (status 0) ALL_AXIS = 0 := by omega
        cases hpoll : pollMagReady (fun u => status (u + 1)) n with
        | none =>
          rw [hpoll] at h
          simp at h
        | some t0 =>
          rw [hpoll] at h
          simp only [Option.map_some'] at h
          have ht : t = t0 + 1 := by
            simpa using h.symm
          subst ht
          obtain ⟨h1, h2⟩ := ih (fun u => status (u + 1)) t0 hpoll
          refine ⟨h1, ?_⟩
          intro u hu
          cases u with
          | zero => exact hb0
          | succ v => exact h2 v (by omega)

/-- Witness for C2 on 128 identical triplets `(100, -50, 25)` at the 4 gauss
resolution: the published physical X bias is the resolution times the raw X
bias. -/
theorem calibrateMag_behavior_witness :
    (LSM9DS1_calibrateMag 5 6 0.00014 (fun _ => ⟨100, -50, 25⟩) true).mBias.get 0 =
      0.00014 * ((LSM9DS1_calibrateMag 5 6 0.00014 (fun _ => ⟨100, -50, 25⟩) true).mBiasRaw.get 0) :=
  ((calibrateMag_behavior 5 6 0.00014 (fun _ => ⟨100, -50, 25⟩) true
    (fun k hk => (by decide : Triple.InRange ⟨100, -50, 25⟩))).1 0).2
